import Mathlib

/-!
Verification of the egui-nav transition state machine and gesture engine.

The definitions below are a shallow embedding of the Rust sources
(src/egui-nav/src): f32 scalars are modelled as exact rationals, egui
context reads (pointer state, dragged-id storage) are passed in
explicitly, and panics are modelled by Option results.
-/

namespace EguiNav

/-- A 2D point (egui Pos2 and Vec2), with rational coordinates. -/
structure Pos2 where
  x : ℚ
  y : ℚ
  deriving DecidableEq, Repr

/-- An axis-aligned rectangle (egui Rect). -/
structure Rect where
  min : Pos2
  max : Pos2
  deriving DecidableEq, Repr

/-- egui Rect::contains: inclusive on all four edges. -/
def Rect.contains (r : Rect) (p : Pos2) : Bool :=
  decide (r.min.x ≤ p.x ∧ p.x ≤ r.max.x ∧ r.min.y ≤ p.y ∧ p.y ≤ r.max.y)

/-- egui Rect::width. -/
def Rect.width (r : Rect) : ℚ :=
  r.max.x - r.min.x

/-- Rust f32::signum, which maps 0 to 1 (never to 0). -/
def signum (x : ℚ) : ℚ :=
  if x < 0 then -1 else 1

/-- src/lib.rs springy: step magnitude, 0.3 of the distance floored at 0.2. -/
def springy (offset : ℚ) : ℚ :=
  max (|offset| * (3/10)) (2/10)

/-- src/lib.rs spring_animate: one damped animation step of offset toward
target, approaching from the left when the flag is set. -/
def spring_animate (offset target : ℚ) (left : Bool) : Option ℚ :=
  if (left ∧ offset ≤ target) ∨ (¬(left : Prop) ∧ offset ≥ target) then none
  else
    let absOffset := |offset - target|
    if absOffset > 1/10 then
      let sgn := signum (offset - target)
      let amt := springy absOffset
      let adj := amt * (if left then -1 else 1)
      let adjusted := offset + adj
      if signum (offset - adj - target) ≠ sgn then none else some adjusted
    else none

/-- One spring step with the direction flag computed the way both callers
in NavAction::handle compute it (left := offset > target). -/
def spring_step (target offset : ℚ) : Option ℚ :=
  spring_animate offset target (decide (offset > target))

/-- Iterated spring stepping: the offset after n frames, or none once the
animation has signalled completion. -/
def springRun (target o : ℚ) : ℕ → Option ℚ
  | 0 => some o
  | n + 1 =>
    match springRun target o n with
    | none => none
    | some x => spring_step target x

/-- src/drag.rs DragDirection: a u8 bitflags set. -/
structure DragDirection where
  bits : ℕ
  deriving DecidableEq, Repr

def DragDirection.LeftToRight : DragDirection := ⟨1⟩

def DragDirection.RightToLeft : DragDirection := ⟨2⟩

def DragDirection.Vertical : DragDirection := ⟨4⟩

/-- bitflags contains: all bits of the argument are present. -/
def DragDirection.contains (a b : DragDirection) : Bool :=
  a.bits &&& b.bits = b.bits

/-- bitflags intersects: some bit of the argument is present. -/
def DragDirection.intersects (a b : DragDirection) : Bool :=
  a.bits &&& b.bits ≠ 0

/-- bitflags union, the Rust | operator on flag sets. -/
def DragDirection.union (a b : DragDirection) : DragDirection :=
  ⟨a.bits ||| b.bits⟩

/-- src/drag.rs DragAngle: policy for separating vertical from horizontal. -/
inductive DragAngle where
  | Balanced : DragAngle
  | VerticalNTimesEasier : ℕ → DragAngle
  deriving DecidableEq, Repr

/-- src/drag.rs cur_direction: classify the vector from the press origin to
the current pointer position into a direction, with an 8px deadzone. -/
def cur_direction (start cur_pos : Pos2) (angle : DragAngle) :
    Option DragDirection :=
  let dx := start.x - cur_pos.x
  let dy := start.y - cur_pos.y
  let min_and : ℚ := 8
  if |dx| < min_and ∧ |dy| < min_and then none
  else
    let is_vertical :=
      match angle with
      | DragAngle.Balanced => decide (|dy| > |dx|)
      | DragAngle.VerticalNTimesEasier n => decide (|dy| * (n : ℚ) > |dx|)
    some
      (if is_vertical then DragDirection.Vertical
       else if dx ≥ 0 then DragDirection.RightToLeft
       else DragDirection.LeftToRight)

/-- src/drag.rs drag_delta: the pointer-delta component along the axis the
direction set cares about. -/
def drag_delta (delta : Pos2) (direction : DragDirection) : ℚ :=
  if direction.intersects
      (DragDirection.LeftToRight.union DragDirection.RightToLeft) then
    delta.x
  else if direction.contains DragDirection.Vertical then
    delta.y
  else 0

/-- src/drag.rs DragState: transient per-gesture record stored in the egui
context (press origin and the detected direction). -/
structure DragState where
  start_pos : Pos2
  cur_direction : DragDirection
  deriving DecidableEq, Repr

/-- Widget identifier (egui Id), opaque and compared for equality. -/
abbrev Id : Type := ℕ

/-- The slice of the egui context that Drag::handle reads and writes:
pointer samples, the global dragged-id claim, and the nav drag state. -/
structure DragCtx where
  draggedId : Option Id
  isDecidedlyDragging : Bool
  primaryDown : Bool
  pressOrigin : Option Pos2
  latestPos : Option Pos2
  dragStoppedId : Option Id
  navDragState : Option DragState

/-- src/drag.rs Drag: per-frame drag interpreter for one surface. -/
structure Drag where
  id : Id
  content_rect : Rect
  direction : DragDirection
  offset_from_rest : ℚ
  threshold : ℚ
  angle : DragAngle

/-- src/drag.rs DragAction: the outcome Drag::handle reports. -/
inductive DragAction where
  | Dragging : DragAction
  | DragReleased : Bool → DragAction
  | DragUnrelated : DragAction
  deriving DecidableEq, Repr

/-- src/drag.rs HandleDragDirection. -/
inductive HandleDragDirection where
  | CorrectDirection : HandleDragDirection
  | DirectionInconclusive : HandleDragDirection
  deriving DecidableEq, Repr

/-- src/drag.rs Drag::get_direction: at release, whether the recorded
gesture pertains to this surface and moves in an accepted direction. -/
def Drag.get_direction (d : Drag) (state : DragState) : HandleDragDirection :=
  if ¬ d.content_rect.contains state.start_pos then
    HandleDragDirection.DirectionInconclusive
  else if d.direction.contains state.cur_direction then
    HandleDragDirection.CorrectDirection
  else
    HandleDragDirection.DirectionInconclusive

/-- src/drag.rs Drag::handle_dragging: returns whether we are dragging in
the correct direction, threading the context mutations (inserted gesture
state, dragged-id takeover). -/
def Drag.handle_dragging (d : Drag) (ctx : DragCtx) (dragged_id : Id)
    (set_dragged : Bool) : Bool × DragCtx :=
  match ctx.pressOrigin, ctx.latestPos with
  | some origin, some latest =>
    if ¬ d.content_rect.contains origin then (false, ctx)
    else
      match cur_direction origin latest d.angle with
      | none => (false, ctx)
      | some cd =>
        if ¬ d.direction.contains cd then (false, ctx)
        else
          let ctx := { ctx with navDragState := some ⟨origin, cd⟩ }
          let ctx :=
            if set_dragged ∧ dragged_id ≠ d.id then
              { ctx with draggedId := some d.id }
            else ctx
          (true, ctx)
  | _, _ => (false, ctx)

/-- src/drag.rs Drag::handle: the per-frame gesture interpreter, returning
the drag outcome (if any) and the mutated context. Follows the source
order: claim an unclaimed decided drag, interpret an owned or takeable
drag, drop the claim when the button is up, and classify a release. -/
def Drag.handle (d : Drag) (ctx : DragCtx) (can_take_from : List Id) :
    Option DragAction × DragCtx :=
  let ctx :=
    if ctx.draggedId = none ∧ ctx.isDecidedlyDragging ∧ ctx.primaryDown ∧
        ctx.pressOrigin.any (fun origin => d.content_rect.contains origin) then
      { ctx with draggedId := some d.id }
    else ctx
  let step2 : Option DragAction × DragCtx :=
    match ctx.draggedId with
    | some dragged_id =>
      let can_take_drag_id := dragged_id ∈ can_take_from
      if can_take_drag_id ∨ dragged_id = d.id then
        let r := d.handle_dragging ctx dragged_id can_take_drag_id
        (if r.1 then some DragAction.Dragging else none, r.2)
      else if d.offset_from_rest > 0 then (some DragAction.DragUnrelated, ctx)
      else (none, ctx)
    | none => (none, ctx)
  let resp := step2.1
  let ctx := step2.2
  let ctx :=
    match ctx.draggedId with
    | some dragged_id =>
      if dragged_id = d.id ∧ ¬ ctx.primaryDown then
        { ctx with draggedId := none }
      else ctx
    | none => ctx
  match ctx.dragStoppedId with
  | some stopped_id =>
    if stopped_id = d.id then
      let resp :=
        match ctx.navDragState with
        | some state =>
          match d.get_direction state with
          | HandleDragDirection.CorrectDirection =>
            some (DragAction.DragReleased
              (decide (d.offset_from_rest ≥ d.threshold)))
          | HandleDragDirection.DirectionInconclusive =>
            some DragAction.DragUnrelated
        | none => resp
      (resp, { ctx with navDragState := none })
    else (resp, ctx)
  | none => (resp, ctx)

/-- src/lib.rs ReturnType: what triggered a return transition. -/
inductive ReturnType where
  | Drag : ReturnType
  | Click : ReturnType
  deriving DecidableEq, Repr

/-- src/lib.rs NavAction: the active transition of a surface. -/
inductive NavAction where
  | Returning : ReturnType → NavAction
  | Resetting : NavAction
  | Dragging : NavAction
  | Returned : ReturnType → NavAction
  | Navigating : NavAction
  | Navigated : NavAction
  deriving DecidableEq, Repr

/-- src/lib.rs NavAction::is_transitioning. -/
def NavAction.is_transitioning : NavAction → Bool
  | NavAction.Returning _ => true
  | NavAction.Resetting => true
  | NavAction.Dragging => true
  | NavAction.Returned _ => false
  | NavAction.Navigated => false
  | NavAction.Navigating => true

/-- src/lib.rs State: the per-surface persisted record. -/
structure State where
  offset : ℚ
  action : Option NavAction
  popped_min_rect : Option Rect
  deriving DecidableEq, Repr

/-- src/lib.rs State::is_transitioning. -/
def State.is_transitioning (s : State) : Bool :=
  match s.action with
  | some a => a.is_transitioning
  | none => false

/-- src/lib.rs NavAction::handle: fold one frame of the active action into
the state. delta is the raw pointer delta this frame; navigated_offset and
returned_offset are the rest and fully-displaced bounds of the surface. -/
def NavAction.handle (a : NavAction) (delta : Pos2)
    (drag_direction : DragDirection) (navigated_offset returned_offset : ℚ)
    (state : State) : State :=
  match a with
  | NavAction.Dragging =>
    let o := state.offset + drag_delta delta drag_direction
    if navigated_offset < returned_offset then
      let o := if o < navigated_offset then navigated_offset else o
      let o := if o > returned_offset then returned_offset else o
      { state with offset := o }
    else if navigated_offset > returned_offset then
      let o := if o > navigated_offset then navigated_offset else o
      let o := if o < returned_offset then returned_offset else o
      { state with offset := o }
    else
      { state with offset := o }
  | NavAction.Returned _ => { state with action := none }
  | NavAction.Navigated => { state with action := none }
  | NavAction.Navigating =>
    match spring_animate state.offset navigated_offset
        (decide (state.offset > navigated_offset)) with
    | some o => { state with offset := o }
    | none => { state with action := some NavAction.Navigated }
  | NavAction.Returning return_type =>
    match spring_animate state.offset returned_offset
        (decide (state.offset > returned_offset)) with
    | some o => { state with offset := o }
    | none =>
      { state with offset := returned_offset,
                   action := some (NavAction.Returned return_type) }
  | NavAction.Resetting =>
    match spring_animate state.offset navigated_offset
        (decide (state.offset > navigated_offset)) with
    | some o => { state with offset := o }
    | none => { state with action := none }

/-- The per-frame action dispatch in Nav::show_internal and
PopupSheet::show_internal: run the stored action, if any. -/
def navFrame (delta : Pos2) (drag_direction : DragDirection)
    (navigated_offset returned_offset : ℚ) (state : State) : State :=
  match state.action with
  | some a => a.handle delta drag_direction navigated_offset returned_offset state
  | none => state

/-- The match in Nav::show_internal mapping a drag outcome to a NavAction
(src/lib.rs lines 356-367). -/
def mapDragAction : DragAction → NavAction
  | DragAction.Dragging => NavAction.Dragging
  | DragAction.DragReleased threshold_met =>
    if threshold_met then NavAction.Returning ReturnType.Drag
    else NavAction.Resetting
  | DragAction.DragUnrelated => NavAction.Resetting

/-- Folding the drag outcome of a frame into the stored state
(src/lib.rs lines 356-369): a reported outcome replaces the action. -/
def applyDragOutcome (outcome : Option DragAction) (state : State) : State :=
  match outcome with
  | some a => { state with action := some (mapDragAction a) }
  | none => state

/-- The Drag value Nav::show_internal builds (src/lib.rs lines 348-355):
left-to-right, threshold one quarter of the content width, balanced. -/
def navDrag (drag_id : Id) (drag_rect : Rect) (content_width : ℚ)
    (state : State) : Drag :=
  { id := drag_id
    content_rect := drag_rect
    direction := DragDirection.LeftToRight
    offset_from_rest := state.offset
    threshold := content_width / 4
    angle := DragAngle.Balanced }

/-- The Rust matches macro test for Some(NavAction::Returning(_)). -/
def isReturningAction : Option NavAction → Bool
  | some (NavAction.Returning _) => true
  | _ => false

/-- The background-rect caching in Nav::show_internal (src/lib.rs
266-304): while transitioning, the measured rect of the rendered
background layer is stored in popped_min_rect. -/
def cacheBgRect (bg_measured : Rect) (state : State) : State :=
  if state.is_transitioning then
    { state with popped_min_rect := some bg_measured }
  else state

/-- The drag-handling block of Nav::show_internal (src/lib.rs 345-370):
dragging is only handled when there is more than one route. -/
def handleNavDrag (route_len : ℕ) (drag_id : Id) (drag_rect : Rect)
    (content_width : ℚ) (ctx : DragCtx) (can_take_from : List Id)
    (state : State) : State :=
  if 1 < route_len then
    applyDragOutcome
      ((navDrag drag_id drag_rect content_width state).handle ctx
        can_take_from).1 state
  else state

/-- The host navigate/return request block of Nav::show_internal
(src/lib.rs 372-380). -/
def hostOverride (navigating returning : Bool) (avail_width : ℚ)
    (state : State) : State :=
  if navigating then
    if state.action ≠ some NavAction.Navigating then
      { state with offset := avail_width,
                   action := some NavAction.Navigating }
    else state
  else if returning ∧ ¬ isReturningAction state.action then
    { state with action := some (NavAction.Returning ReturnType.Click) }
  else state

/-- The post-action offset reset of Nav::show_internal (src/lib.rs
391-393). -/
def returnedReset (state : State) : State :=
  match state.action with
  | some (NavAction.Returned _) => { state with offset := 0 }
  | _ => state

/-- The state-update portion of Nav::show_internal (src/lib.rs 254-403):
cache the background rect while transitioning, fold the drag outcome when
more than one route exists, apply host navigate/return requests, run the
active action for this frame, and reset the offset once returned. -/
def show_internal_update (navigating returning : Bool) (route_len : ℕ)
    (drag_id : Id) (drag_rect : Rect) (content_width avail_width : ℚ)
    (ctx : DragCtx) (can_take_from : List Id) (delta : Pos2)
    (bg_measured : Rect) (state : State) : State :=
  returnedReset
    (navFrame delta DragDirection.LeftToRight 0 avail_width
      (hostOverride navigating returning avail_width
        (handleNavDrag route_len drag_id drag_rect content_width ctx
          can_take_from (cacheBgRect bg_measured state))))

/-- src/lib.rs Nav: the stack navigator entry point (render-irrelevant
fields). -/
structure Nav (Route : Type) where
  id_source : Option Id
  route : List Route
  navigating : Bool
  returning : Bool

/-- src/lib.rs Nav::new, which asserts the route stack is not empty; the
panic is modelled as none. -/
def Nav.new {Route : Type} (route : List Route) : Option (Nav Route) :=
  if route.isEmpty then none
  else some { id_source := none, route := route,
              navigating := false, returning := false }

/-- src/router.rs flag constants. -/
def RETURNING : ℕ := 1

def NAVIGATING : ℕ := 2

def REPLACING : ℕ := 4

/-- src/router.rs Router: a route stack plus u32 status flags. -/
structure Router (Route : Type) where
  routes : List Route
  flags : ℕ

/-- src/router.rs Router::new, which panics on an empty stack; the panic
is modelled as none. -/
def Router.new {Route : Type} (routes : List Route) :
    Option (Router Route) :=
  if routes.isEmpty then none
  else some { routes := routes, flags := 0 }

/-- src/router.rs Router::set_returning; the u32 mask complement of
RETURNING is 0xFFFF_FFFE. -/
def Router.set_returning {Route : Type} (r : Router Route) (value : Bool) :
    Router Route :=
  if value then { r with flags := r.flags ||| RETURNING }
  else { r with flags := r.flags &&& 4294967294 }

/-- src/router.rs Router::is_returning. -/
def Router.is_returning {Route : Type} (r : Router Route) : Bool :=
  r.flags &&& RETURNING ≠ 0

/-- src/router.rs Router::prev: the route just below the top. -/
def Router.prev {Route : Type} (r : Router Route) : Option Route :=
  r.routes.get? (r.routes.length - 2)

/-- src/router.rs Router::pop: refuse to drop the last route; otherwise
clear the returning flag and remove the top (Vec::pop). -/
def Router.pop {Route : Type} (r : Router Route) :
    Option Route × Router Route :=
  if r.routes.length = 1 then (none, r)
  else
    let r := r.set_returning false
    (r.routes.getLast?, { r with routes := r.routes.dropLast })

/-- src/router.rs Router::go_back: start the returning process unless we
already are returning or only one route remains. -/
def Router.go_back {Route : Type} (r : Router Route) :
    Option Route × Router Route :=
  if r.is_returning ∨ r.routes.length = 1 then (none, r)
  else
    let r := r.set_returning true
    (r.prev, r)

end EguiNav

namespace EguiNav

lemma springy_abs (x : ℚ) : springy x = springy |x| := by
  simp [springy, abs_abs]

lemma springy_pos (x : ℚ) : 0 < springy x := by
  have : (0:ℚ) < 2/10 := by norm_num
  exact lt_max_of_lt_right this

lemma signum_mul_self_abs (x : ℚ) : signum x * |x| = x := by
  rcases lt_or_ge x 0 with h | h
  · simp [signum, h, abs_of_neg h]
  · simp [signum, not_lt.mpr h, abs_of_nonneg h]

lemma abs_signum (x : ℚ) : |signum x| = 1 := by
  rcases lt_or_ge x 0 with h | h
  · simp [signum, h]
  · simp [signum, not_lt.mpr h]

lemma spring_step_eq_none {o t : ℚ} (h : |o - t| ≤ 1/10) :
    spring_step t o = none := by
  rcases lt_trichotomy o t with hlt | heq | hgt
  · have hnd : ¬ (o > t) := not_lt.mpr hlt.le
    have hge : ¬ (o ≥ t) := not_le.mpr hlt
    simp [spring_step, spring_animate, hnd, hge]
    intro hc
    linarith
  · subst heq
    simp [spring_step, spring_animate]
  · have hle : ¬ (o ≤ t) := not_le.mpr hgt
    simp [spring_step, spring_animate, hgt, hle]
    intro hc
    linarith

lemma spring_step_eq_some {o t : ℚ} (h : 1/10 < |o - t|) :
    spring_step t o = some (o - signum (o - t) * springy |o - t|) := by
  rcases lt_trichotomy o t with hlt | heq | hgt
  · have hd : o - t < 0 := sub_neg.mpr hlt
    have hnd : ¬ (o > t) := not_lt.mpr hlt.le
    have hge : ¬ (o ≥ t) := not_le.mpr hlt
    have hs : signum (o - t) = -1 := by simp [signum, hd]
    have hsg : signum (o - springy |o - t| - t) = -1 := by
      have := springy_pos |o - t|
      have harg : o - springy |o - t| - t < 0 := by linarith
      simp [signum, harg]
    simp [spring_step, spring_animate, hnd, hge, hs]
    exact ⟨by linarith, hsg⟩
  · subst heq
    simp at h
    exact absurd h (by norm_num)
  · have hd : 0 < o - t := sub_pos.mpr hgt
    have hle : ¬ (o ≤ t) := not_le.mpr hgt
    have hs : signum (o - t) = 1 := by simp [signum, not_lt.mpr hd.le]
    have hsg : signum (o + springy |o - t| - t) = 1 := by
      have := springy_pos |o - t|
      have harg : ¬ (o + springy |o - t| - t < 0) := by push_neg; linarith
      simp [signum, harg]
    simp [spring_step, spring_animate, hgt, hle, hs]
    exact ⟨by linarith, hsg, by ring⟩

lemma dist_decay {d : ℚ} (hd : 1/10 < d) :
    |d - springy d| ≤ 7/10 * d ∨ |d - springy d| ≤ 1/10 := by
  have habs : |d| = d := abs_of_pos (by linarith)
  rcases le_or_lt (2/10 : ℚ) (d * (3/10)) with hc | hc
  · left
    have hsp : springy d = d * (3/10) := by
      rw [springy, habs]
      exact max_eq_left hc
    rw [hsp, abs_of_nonneg (by linarith)]
    linarith
  · have hsp : springy d = 2/10 := by
      rw [springy, habs]
      exact max_eq_right hc.le
    rcases le_or_lt (2/10 : ℚ) d with h2 | h2
    · left
      rw [hsp, abs_of_nonneg (by linarith)]
      linarith
    · right
      rw [hsp, abs_of_nonpos (by linarith)]
      linarith

lemma dist_strict {d : ℚ} (hd : 1/10 < d) : |d - springy d| < d := by
  have h0 : (0:ℚ) < d := by linarith
  have hpos := springy_pos d
  have hlt : springy d < 2 * d := by
    rw [springy, abs_of_pos h0]
    apply max_lt
    · nlinarith
    · linarith
  rw [abs_lt]
  constructor <;> linarith

lemma spring_step_some_eqs {o t r : ℚ} (hr : spring_step t o = some r) :
    1/10 < |o - t| ∧ |r - t| = abs (|o - t| - springy |o - t|) ∧
      |r - o| = springy (o - t) := by
  have hfar : 1/10 < |o - t| := by
    by_contra hc
    push_neg at hc
    rw [spring_step_eq_none hc] at hr
    exact Option.noConfusion hr
  have heq := spring_step_eq_some hfar
  rw [hr] at heq
  have hrv : r = o - signum (o - t) * springy |o - t| :=
    Option.some_inj.mp heq
  refine ⟨hfar, ?_, ?_⟩
  · have h1 : r - t = (o - t) - signum (o - t) * springy |o - t| := by
      rw [hrv]; ring
    have h2 : r - t = signum (o - t) * (|o - t| - springy |o - t|) := by
      rw [h1]
      calc (o - t) - signum (o - t) * springy |o - t|
          = signum (o - t) * |o - t| - signum (o - t) * springy |o - t| := by
            rw [signum_mul_self_abs]
        _ = signum (o - t) * (|o - t| - springy |o - t|) := by ring
    rw [h2, abs_mul, abs_signum, one_mul]
  · have h3 : r - o = -(signum (o - t) * springy |o - t|) := by
      rw [hrv]; ring
    rw [h3, abs_neg, abs_mul, abs_signum, one_mul,
      abs_of_pos (springy_pos _)]
    exact (springy_abs _).symm

lemma spring_step_some_bounds {o t r : ℚ} (hr : spring_step t o = some r) :
    (|r - t| ≤ 7/10 * |o - t| ∨ |r - t| ≤ 1/10) ∧
      |r - t| < |o - t| ∧ |r - o| = springy (o - t) := by
  obtain ⟨hfar, h1, h2⟩ := spring_step_some_eqs hr
  refine ⟨?_, ?_, h2⟩
  · rw [h1]
    exact dist_decay hfar
  · rw [h1]
    exact dist_strict hfar

lemma springRun_succ_none {t o : ℚ} {n : ℕ} (h : springRun t o n = none) :
    springRun t o (n+1) = none := by
  simp [springRun, h]

lemma springRun_invariant (t o : ℚ) : ∀ n : ℕ,
    springRun t o n = none ∨
    ∃ x, springRun t o n = some x ∧
      (|x - t| ≤ (7/10)^n * |o - t| ∨ |x - t| ≤ 1/10) := by
  intro n
  induction n with
  | zero =>
    right
    exact ⟨o, rfl, Or.inl (by simp)⟩
  | succ n ih =>
    rcases ih with hn | ⟨x, hx, hb⟩
    · exact Or.inl (springRun_succ_none hn)
    · rcases le_or_lt (|x - t|) (1/10) with hclose | hfar
      · left
        simp [springRun, hx, spring_step_eq_none hclose]
      · have hstep := spring_step_eq_some hfar
        right
        refine ⟨x - signum (x - t) * springy |x - t|, ?_, ?_⟩
        · simp [springRun, hx, hstep]
        · obtain ⟨hdec, _, _⟩ := spring_step_some_bounds hstep
          rcases hdec with hdec | hdec
          · rcases hb with hb | hb
            · left
              calc |x - signum (x - t) * springy |x - t| - t|
                  ≤ 7/10 * |x - t| := hdec
                _ ≤ 7/10 * ((7/10)^n * |o - t|) := by
                    apply mul_le_mul_of_nonneg_left hb
                    norm_num
                _ = (7/10)^(n+1) * |o - t| := by ring
            · linarith
          · exact Or.inr hdec

lemma springRun_terminates_at {t o : ℚ} {n : ℕ}
    (h : (7/10 : ℚ)^n * |o - t| ≤ 1/10) : springRun t o (n+2) = none := by
  rcases springRun_invariant t o n with hn | ⟨x, hx, hb⟩
  · exact springRun_succ_none (springRun_succ_none hn)
  · have hx10 : |x - t| ≤ 1/10 := by
      rcases hb with hb | hb
      · linarith
      · exact hb
    have hnext : springRun t o (n+1) = none := by
      simp [springRun, hx, spring_step_eq_none hx10]
    exact springRun_succ_none hnext

lemma springRun_ex_none (t o : ℚ) : ∃ n, springRun t o n = none := by
  have hden : (0:ℚ) < |o - t| + 1 := by positivity
  obtain ⟨n, hn⟩ := exists_pow_lt_of_lt_one
    (show (0:ℚ) < (1/10) / (|o - t| + 1) by positivity)
    (show (7/10 : ℚ) < 1 by norm_num)
  refine ⟨n + 2, springRun_terminates_at ?_⟩
  have h1 : (7/10 : ℚ)^n * |o - t| ≤ ((1/10) / (|o - t| + 1)) * (|o - t| + 1) := by
    apply mul_le_mul hn.le (by linarith) (abs_nonneg _) (by positivity)
  calc (7/10 : ℚ)^n * |o - t| ≤ ((1/10) / (|o - t| + 1)) * (|o - t| + 1) := h1
    _ = 1/10 := div_mul_cancel₀ _ (ne_of_gt hden)

end EguiNav

namespace EguiNav

lemma navFrame_navigating_some {delta : Pos2} {dir : DragDirection}
    {ret : ℚ} {pr : Option Rect} {o x : ℚ}
    (h : spring_step 0 o = some x) :
    navFrame delta dir 0 ret ⟨o, some NavAction.Navigating, pr⟩ =
      ⟨x, some NavAction.Navigating, pr⟩ := by
  unfold spring_step at h
  simp [navFrame, NavAction.handle, h]

lemma navFrame_navigating_none {delta : Pos2} {dir : DragDirection}
    {ret : ℚ} {pr : Option Rect} {o : ℚ}
    (h : spring_step 0 o = none) :
    navFrame delta dir 0 ret ⟨o, some NavAction.Navigating, pr⟩ =
      ⟨o, some NavAction.Navigated, pr⟩ := by
  unfold spring_step at h
  simp [navFrame, NavAction.handle, h]

lemma navFrame_iter_navigating {delta : Pos2} {dir : DragDirection}
    {ret : ℚ} {pr : Option Rect} {w : ℚ} :
    ∀ (n : ℕ) (x : ℚ), springRun 0 w n = some x →
      (navFrame delta dir 0 ret)^[n] ⟨w, some NavAction.Navigating, pr⟩ =
        ⟨x, some NavAction.Navigating, pr⟩ := by
  intro n
  induction n with
  | zero =>
    intro x hx
    simp [springRun] at hx
    simp [hx]
  | succ n ih =>
    intro x hx
    cases hsr : springRun 0 w n with
    | none => simp [springRun, hsr] at hx
    | some y =>
      have hy : spring_step 0 y = some x := by
        simpa [springRun, hsr] using hx
      rw [Function.iterate_succ_apply', ih y hsr, navFrame_navigating_some hy]

lemma spring_step_one : spring_step 0 (1:ℚ) = some (7/10) := by
  rw [spring_step_eq_some (by norm_num [abs_of_nonneg])]
  norm_num [signum, springy, max_def, abs]

lemma spring_step_b : spring_step 0 ((7:ℚ)/10) = some (49/100) := by
  rw [spring_step_eq_some (by norm_num [abs_of_nonneg])]
  norm_num [signum, springy, max_def, abs_of_nonneg]

lemma spring_step_c : spring_step 0 ((49:ℚ)/100) = some (29/100) := by
  rw [spring_step_eq_some (by norm_num [abs_of_nonneg])]
  norm_num [signum, springy, max_def, abs_of_nonneg]

lemma spring_step_d : spring_step 0 ((29:ℚ)/100) = some (9/100) := by
  rw [spring_step_eq_some (by norm_num [abs_of_nonneg])]
  norm_num [signum, springy, max_def, abs_of_nonneg]

lemma spring_step_e : spring_step 0 ((9:ℚ)/100) = none := by
  apply spring_step_eq_none
  norm_num [abs_of_nonneg]

/-- Claim C2 counterexample. -/
theorem navigated_offset_not_exact :
    ((navFrame ⟨0,0⟩ DragDirection.LeftToRight 0 1)^[5]
        ⟨1, some NavAction.Navigating, none⟩) =
      ⟨9/100, some NavAction.Navigated, none⟩ ∧ (9/100 : ℚ) ≠ 0 := by
  constructor
  · rw [Function.iterate_succ_apply, navFrame_navigating_some spring_step_one,
      Function.iterate_succ_apply, navFrame_navigating_some spring_step_b,
      Function.iterate_succ_apply, navFrame_navigating_some spring_step_c,
      Function.iterate_succ_apply, navFrame_navigating_some spring_step_d,
      Function.iterate_one, navFrame_navigating_none spring_step_e]
  · norm_num

end EguiNav

namespace EguiNav

/-- Claim C2 (amended): from Navigating at any starting offset, the
per-frame action handler reaches Navigated after finitely many frames
with the offset within the 1/10 completion tolerance of the rest offset
0; the code does not snap the offset exactly to rest on this path. -/
theorem navigating_reaches_navigated_within_tolerance
    (w : ℚ) (delta : Pos2) (dir : DragDirection) (ret : ℚ)
    (pr : Option Rect) :
    ∃ n : ℕ,
      ((navFrame delta dir 0 ret)^[n]
          ⟨w, some NavAction.Navigating, pr⟩).action =
        some NavAction.Navigated ∧
      |((navFrame delta dir 0 ret)^[n]
          ⟨w, some NavAction.Navigating, pr⟩).offset| ≤ 1/10 := by
  classical
  have hex : ∃ n, springRun 0 w n = none := springRun_ex_none 0 w
  have hk : springRun 0 w (Nat.find hex) = none := Nat.find_spec hex
  have hkpos : Nat.find hex ≠ 0 := by
    intro h0
    rw [h0] at hk
    simp [springRun] at hk
  obtain ⟨m, hm⟩ := Nat.exists_eq_succ_of_ne_zero hkpos
  have hmlt : m < Nat.find hex := by omega
  obtain ⟨x, hx⟩ : ∃ x, springRun 0 w m = some x := by
    cases hsr : springRun 0 w m with
    | none => exact absurd hsr (Nat.find_min hex hmlt)
    | some x => exact ⟨x, rfl⟩
  have hstep : spring_step 0 x = none := by
    rw [hm] at hk
    simpa [springRun, hx] using hk
  have hxtol : |x - 0| ≤ 1/10 := by
    by_contra hc
    push_neg at hc
    rw [spring_step_eq_some hc] at hstep
    exact Option.noConfusion hstep
  have hiter : (navFrame delta dir 0 ret)^[Nat.find hex]
      ⟨w, some NavAction.Navigating, pr⟩ =
        ⟨x, some NavAction.Navigated, pr⟩ := by
    rw [hm, Function.iterate_succ_apply', navFrame_iter_navigating m x hx,
      navFrame_navigating_none hstep]
  refine ⟨Nat.find hex, ?_, ?_⟩
  · rw [hiter]
  · rw [hiter]
    simpa using hxtol

/-- Claim C3: the overshoot guard in spring_animate never fires; at
offset 3/20 with target 0 approaching from the left the step returns
Some(-1/20), a value on the far side of the target with flipped sign,
instead of signalling completion as the claim requires. -/
theorem spring_animate_overshoots :
    spring_animate (3/20) 0 true = some (-(1/20)) ∧
      (0:ℚ) < 3/20 - 0 ∧ (-(1/20) : ℚ) - 0 < 0 := by
  refine ⟨?_, by norm_num, by norm_num⟩
  norm_num [spring_animate, signum, springy, max_def, abs]

/-- Claim C4: the spring step signals completion exactly when the offset
is within the 1/10 tolerance of the target; otherwise it returns a value
strictly closer to the target whose step magnitude is 0.3 of the
remaining distance floored at 0.2; and iterating it completes within a
number of frames logarithmic in the starting distance. -/
theorem spring_step_monotonic_terminating (o t : ℚ) :
    (spring_step t o = none ↔ |o - t| ≤ 1/10) ∧
    (∀ r, spring_step t o = some r →
      |r - t| < |o - t| ∧ |r - o| = springy (o - t)) ∧
    (∀ n : ℕ, (7/10 : ℚ)^n * |o - t| ≤ 1/10 →
      springRun t o (n + 2) = none) := by
  refine ⟨⟨fun h => ?_, spring_step_eq_none⟩, fun r hr => ?_,
    fun n hn => springRun_terminates_at hn⟩
  · by_contra hc
    push_neg at hc
    rw [spring_step_eq_some hc] at h
    exact Option.noConfusion h
  · obtain ⟨_, h1, h2⟩ := spring_step_some_bounds hr
    exact ⟨h1, h2⟩

/-- Witness for C4 at offset 1, target 0: nine frames complete. -/
theorem spring_step_monotonic_terminating_witness :
    ((7/10 : ℚ)^7 * |(1:ℚ) - 0| ≤ 1/10) ∧ springRun 0 1 (7 + 2) = none :=
  ⟨by norm_num, (spring_step_monotonic_terminating 1 0).2.2 7 (by norm_num)⟩

end EguiNav

namespace EguiNav

/-- Claim C5: while Dragging, each frame leaves the offset inside the
closed interval spanned by the rest (navigated) and fully-displaced
(returned) offsets, for either orientation of the interval; the action
is left untouched (stays Dragging). The statement is generic in the drag
direction and bounds and so covers the horizontal Nav surface
(0 to width) and the vertical PopupSheet surface (max_height to
max_size). -/
theorem dragging_offset_clamped (st : State) (delta : Pos2)
    (dir : DragDirection) (navO retO : ℚ) (h : navO ≠ retO) :
    min navO retO ≤
        (NavAction.handle NavAction.Dragging delta dir navO retO st).offset ∧
      (NavAction.handle NavAction.Dragging delta dir navO retO st).offset ≤
        max navO retO ∧
      (NavAction.handle NavAction.Dragging delta dir navO retO st).action =
        st.action := by
  rcases lt_or_gt_of_ne h with hlt | hgt
  · have hmin : min navO retO = navO := min_eq_left hlt.le
    have hmax : max navO retO = retO := max_eq_right hlt.le
    simp only [NavAction.handle, if_pos hlt, hmin, hmax]
    split_ifs <;> simp_all
  · have hlt' : ¬ navO < retO := not_lt.mpr hgt.le
    have hmin : min navO retO = retO := min_eq_right hgt.le
    have hmax : max navO retO = navO := max_eq_left hgt.le
    simp only [NavAction.handle, if_neg hlt', if_pos hgt, hmin, hmax]
    split_ifs <;> simp_all

/-- Witness for C5: a +40 drag frame from rest with bounds 0 and 300
stays within the interval. -/
theorem dragging_offset_clamped_witness :
    ((0:ℚ) ≠ 300) ∧
      min (0:ℚ) 300 ≤
        (NavAction.handle NavAction.Dragging ⟨40, 0⟩
          DragDirection.LeftToRight 0 300
          ⟨0, some NavAction.Dragging, none⟩).offset :=
  ⟨by norm_num,
    (dragging_offset_clamped ⟨0, some NavAction.Dragging, none⟩ ⟨40, 0⟩
      DragDirection.LeftToRight 0 300 (by norm_num)).1⟩

end EguiNav

namespace EguiNav

lemma Drag.handle_inactive (d : Drag) (ctx : DragCtx) (ctf : List Id)
    (h1 : ctx.draggedId = none) (h2 : ctx.dragStoppedId = none)
    (h3 : ctx.isDecidedlyDragging = false) :
    d.handle ctx ctf = (none, ctx) := by
  simp [Drag.handle, h1, h2, h3]

lemma mapDragAction_ne_navigating (a : DragAction) :
    mapDragAction a ≠ NavAction.Navigating := by
  cases a with
  | Dragging => simp [mapDragAction]
  | DragReleased tm => cases tm <;> simp [mapDragAction]
  | DragUnrelated => simp [mapDragAction]

lemma cacheBgRect_action (bg : Rect) (st : State) :
    (cacheBgRect bg st).action = st.action := by
  unfold cacheBgRect
  split_ifs <;> rfl

lemma handleNavDrag_action_ne_navigating (rl : ℕ) (di : Id) (dr : Rect)
    (cw : ℚ) (ctx : DragCtx) (ctf : List Id) (st : State)
    (h : st.action ≠ some NavAction.Navigating) :
    (handleNavDrag rl di dr cw ctx ctf st).action ≠
      some NavAction.Navigating := by
  unfold handleNavDrag
  split_ifs with hrl
  · unfold applyDragOutcome
    cases ho : ((navDrag di dr cw st).handle ctx ctf).1 with
    | none => exact h
    | some a =>
      simp
      exact mapDragAction_ne_navigating a
  · exact h

lemma hostOverride_navigating {st : State} (ret : Bool) (aw : ℚ)
    (h : st.action ≠ some NavAction.Navigating) :
    hostOverride true ret aw st =
      ⟨aw, some NavAction.Navigating, st.popped_min_rect⟩ := by
  simp [hostOverride, h]

/-- Claim C1 (amended): a host navigating=true request re-arms Navigating
(resetting the offset to the fully-displaced width) whenever the current
action is anything other than Navigating, including an active Dragging:
the drag is pre-empted, not deferred. After the frame the action is
Navigating (or already Navigated when the width is within the completion
tolerance), never Dragging. -/
theorem navigating_overrides_dragging (ret : Bool) (rl : ℕ) (di : Id)
    (dr : Rect) (cw aw : ℚ) (ctx : DragCtx) (ctf : List Id) (delta : Pos2)
    (bg : Rect) (st : State) (hst : st.action = some NavAction.Dragging) :
    (show_internal_update true ret rl di dr cw aw ctx ctf delta bg
        st).action =
      (if |aw| ≤ 1/10 then some NavAction.Navigated
       else some NavAction.Navigating) ∧
    (show_internal_update true ret rl di dr cw aw ctx ctf delta bg
        st).action ≠ some NavAction.Dragging := by
  have h1 : (cacheBgRect bg st).action = st.action := cacheBgRect_action bg st
  have h2 : (handleNavDrag rl di dr cw ctx ctf (cacheBgRect bg st)).action ≠
      some NavAction.Navigating := by
    apply handleNavDrag_action_ne_navigating
    rw [h1, hst]
    simp
  unfold show_internal_update
  rw [hostOverride_navigating ret aw h2]
  rcases le_or_lt (|aw - 0|) (1/10) with htol | htol
  · have hs := spring_step_eq_none htol
    rw [navFrame_navigating_none hs]
    rw [sub_zero] at htol
    rw [if_pos htol]
    simp [returnedReset]
  · have hs := spring_step_eq_some htol
    rw [navFrame_navigating_some hs]
    rw [sub_zero] at htol
    rw [if_neg (not_le.mpr htol)]
    simp [returnedReset]

end EguiNav

namespace EguiNav

lemma spring_step_300 : spring_step 0 (300:ℚ) = some 210 := by
  rw [spring_step_eq_some (by norm_num [abs_of_nonneg])]
  norm_num [signum, springy, max_def, abs_of_nonneg]

/-- Claim C1 counterexample: a stored Dragging state hit by a
navigating=true frame does not stay Dragging; the update re-arms
Navigating with the offset reset to the width 300 and then animated one
step to 210. -/
theorem navigating_overrides_dragging_counterexample :
    show_internal_update true false 2 (0:Id) ⟨⟨0,0⟩,⟨300,300⟩⟩ 300 300
        ⟨none, false, false, none, none, none, none⟩ [] ⟨0,0⟩ ⟨⟨0,0⟩,⟨0,0⟩⟩
        ⟨40, some NavAction.Dragging, none⟩ =
      ⟨210, some NavAction.Navigating, some ⟨⟨0,0⟩,⟨0,0⟩⟩⟩ ∧
      some NavAction.Navigating ≠ some NavAction.Dragging := by
  constructor
  · unfold show_internal_update
    have hA : cacheBgRect ⟨⟨0,0⟩,⟨0,0⟩⟩ ⟨40, some NavAction.Dragging, none⟩ =
        ⟨40, some NavAction.Dragging, some ⟨⟨0,0⟩,⟨0,0⟩⟩⟩ := rfl
    rw [hA]
    have hB : handleNavDrag 2 (0:Id) ⟨⟨0,0⟩,⟨300,300⟩⟩ 300
        ⟨none, false, false, none, none, none, none⟩ []
        ⟨40, some NavAction.Dragging, some ⟨⟨0,0⟩,⟨0,0⟩⟩⟩ =
        ⟨40, some NavAction.Dragging, some ⟨⟨0,0⟩,⟨0,0⟩⟩⟩ := by
      unfold handleNavDrag
      rw [if_pos (by norm_num)]
      rw [Drag.handle_inactive _ _ _ rfl rfl rfl]
      rfl
    rw [hB]
    rw [hostOverride_navigating false 300 (by simp)]
    rw [navFrame_navigating_some spring_step_300]
    rfl
  · simp

/-- Witness for C1 (amended) at the same concrete inputs: width 300 is
beyond tolerance, so the frame ends in Navigating. -/
theorem navigating_overrides_dragging_witness :
    (⟨40, some NavAction.Dragging, none⟩ : State).action =
        some NavAction.Dragging ∧
      (show_internal_update true false 2 (0:Id) ⟨⟨0,0⟩,⟨300,300⟩⟩ 300 300
          ⟨none, false, false, none, none, none, none⟩ [] ⟨0,0⟩
          ⟨⟨0,0⟩,⟨0,0⟩⟩ ⟨40, some NavAction.Dragging, none⟩).action =
        (if |(300:ℚ)| ≤ 1/10 then some NavAction.Navigated
         else some NavAction.Navigating) :=
  ⟨rfl,
    (navigating_overrides_dragging false 2 0 ⟨⟨0,0⟩,⟨300,300⟩⟩ 300 300
      ⟨none, false, false, none, none, none, none⟩ [] ⟨0,0⟩ ⟨⟨0,0⟩,⟨0,0⟩⟩
      ⟨40, some NavAction.Dragging, none⟩ rfl).1⟩

/-- Claim C8: with no drag activity in the context, both host flags
false, and no stored action, the per-frame update is the identity on the
stored SurfaceState. -/
theorem idle_update_idempotent (rl : ℕ) (di : Id) (dr : Rect)
    (cw aw : ℚ) (ctx : DragCtx) (ctf : List Id) (delta : Pos2) (bg : Rect)
    (st : State) (hact : st.action = none) (hd : ctx.draggedId = none)
    (hs : ctx.dragStoppedId = none)
    (hdec : ctx.isDecidedlyDragging = false) :
    show_internal_update false false rl di dr cw aw ctx ctf delta bg st =
      st := by
  unfold show_internal_update
  have hA : cacheBgRect bg st = st := by
    simp [cacheBgRect, State.is_transitioning, hact]
  rw [hA]
  have hB : handleNavDrag rl di dr cw ctx ctf st = st := by
    unfold handleNavDrag
    split_ifs with hrl
    · rw [Drag.handle_inactive _ _ _ hd hs hdec]
      rfl
    · rfl
  rw [hB]
  have hC : hostOverride false false aw st = st := by
    simp [hostOverride]
  rw [hC]
  have hD : navFrame delta DragDirection.LeftToRight 0 aw st = st := by
    simp [navFrame, hact]
  rw [hD]
  unfold returnedReset
  rw [hact]

/-- Witness for C8: a concrete idle state and quiescent context survive a
frame unchanged. -/
theorem idle_update_idempotent_witness :
    (⟨5, none, none⟩ : State).action = none ∧
      show_internal_update false false 2 (0:Id) ⟨⟨0,0⟩,⟨300,300⟩⟩ 300 300
        ⟨none, false, false, none, none, none, none⟩ [] ⟨0,0⟩ ⟨⟨0,0⟩,⟨0,0⟩⟩
        ⟨5, none, none⟩ = ⟨5, none, none⟩ :=
  ⟨rfl,
    idle_update_idempotent 2 0 ⟨⟨0,0⟩,⟨300,300⟩⟩ 300 300
      ⟨none, false, false, none, none, none, none⟩ [] ⟨0,0⟩ ⟨⟨0,0⟩,⟨0,0⟩⟩
      ⟨5, none, none⟩ rfl rfl rfl rfl⟩

end EguiNav

namespace EguiNav

/-- Claim C6: releasing a drag that belongs to the surface (the stopped
id is the surface's drag id and the recorded gesture started inside the
content rect in an accepted direction) reports DragReleased with
threshold_met set exactly when offset-from-rest reaches the threshold;
Nav::show_internal maps threshold_met to Returning(Drag), a missed
threshold to Resetting, and a DragUnrelated outcome to Resetting
whatever the stored state; the Nav drag threshold is one quarter of the
content width. -/
theorem drag_release_classification (d : Drag) (ctx : DragCtx)
    (ctf : List Id) (ds : DragState) (st : State)
    (hd : ctx.draggedId = none) (hp : ctx.primaryDown = false)
    (hstop : ctx.dragStoppedId = some d.id)
    (hds : ctx.navDragState = some ds)
    (hin : d.content_rect.contains ds.start_pos = true)
    (hdir : d.direction.contains ds.cur_direction = true) :
    (d.handle ctx ctf).1 =
      some (DragAction.DragReleased
        (decide (d.offset_from_rest ≥ d.threshold))) ∧
    (d.threshold ≤ d.offset_from_rest →
      (applyDragOutcome (d.handle ctx ctf).1 st).action =
        some (NavAction.Returning ReturnType.Drag)) ∧
    (d.offset_from_rest < d.threshold →
      (applyDragOutcome (d.handle ctx ctf).1 st).action =
        some NavAction.Resetting) ∧
    ((applyDragOutcome (some DragAction.DragUnrelated) st).action =
      some NavAction.Resetting) ∧
    (∀ (di : Id) (dr : Rect) (cw : ℚ) (st' : State),
      (navDrag di dr cw st').threshold = cw / 4) := by
  have hmain : (d.handle ctx ctf).1 =
      some (DragAction.DragReleased
        (decide (d.offset_from_rest ≥ d.threshold))) := by
    simp [Drag.handle, hd, hp, hstop, hds, Drag.get_direction, hin, hdir]
  refine ⟨hmain, ?_, ?_, ?_, fun di dr cw st' => rfl⟩
  · intro hmet
    rw [hmain]
    simp [applyDragOutcome, mapDragAction, hmet]
  · intro hmiss
    rw [hmain]
    simp [applyDragOutcome, mapDragAction, not_le.mpr hmiss]
  · simp [applyDragOutcome, mapDragAction]

/-- Witness for C6: scenario B numbers, offset 120 against threshold 75
inside a 300-wide surface, released in the accepted direction. -/
theorem drag_release_classification_witness :
    ((75:ℚ) ≤ 120) ∧
      (applyDragOutcome
        (Drag.handle
            ⟨7, ⟨⟨0,0⟩,⟨300,300⟩⟩, DragDirection.LeftToRight, 120, 75,
              DragAngle.Balanced⟩
            ⟨none, false, false, none, none, some 7,
              some ⟨⟨10,10⟩, DragDirection.LeftToRight⟩⟩ []).1
        ⟨40, some NavAction.Dragging, none⟩).action =
        some (NavAction.Returning ReturnType.Drag) :=
  ⟨by norm_num,
    (drag_release_classification
      ⟨7, ⟨⟨0,0⟩,⟨300,300⟩⟩, DragDirection.LeftToRight, 120, 75,
        DragAngle.Balanced⟩
      ⟨none, false, false, none, none, some 7,
        some ⟨⟨10,10⟩, DragDirection.LeftToRight⟩⟩ []
      ⟨⟨10,10⟩, DragDirection.LeftToRight⟩
      ⟨40, some NavAction.Dragging, none⟩
      rfl rfl rfl rfl (by norm_num [Rect.contains]) rfl).2.1
      (by norm_num)⟩

end EguiNav

namespace EguiNav

/-- Claim C7 counterexample: with the VerticalNTimesEasier(2) policy and
deltas dx = 16, dy = 8, the horizontal delta equals (does not exceed)
twice the vertical delta, yet the code classifies the motion as
horizontal (RightToLeft), not vertical as the claim requires. -/
theorem angle_boundary_counterexample :
    cur_direction ⟨16, 8⟩ ⟨0, 0⟩ (DragAngle.VerticalNTimesEasier 2) =
      some DragDirection.RightToLeft ∧
    ¬ (|(16:ℚ) - 0| > 2 * |(8:ℚ) - 0|) ∧
    some DragDirection.RightToLeft ≠ some DragDirection.Vertical := by
  refine ⟨?_, by norm_num [abs_of_nonneg], by decide⟩
  norm_num [cur_direction, abs_of_nonneg]

end EguiNav

namespace EguiNav

/-- Claim C7 (amended): motion below the 8px deadzone on both axes is
inconclusive; under Balanced the axis with the strictly larger absolute
delta wins; under VerticalNTimesEasier(n) the result is vertical unless
the horizontal delta is at least n times the vertical delta (ties go
horizontal); horizontal splits into LeftToRight exactly when the pointer
moved toward larger x (ties go RightToLeft); and a classification the
surface's allowed directions do not contain yields no dragging outcome. -/
theorem drag_direction_classification (start cur : Pos2) (n : ℕ) :
    ((|start.x - cur.x| < 8 ∧ |start.y - cur.y| < 8) →
      ∀ a, cur_direction start cur a = none) ∧
    (¬ (|start.x - cur.x| < 8 ∧ |start.y - cur.y| < 8) →
      (|start.y - cur.y| > |start.x - cur.x| →
        cur_direction start cur DragAngle.Balanced =
          some DragDirection.Vertical) ∧
      (|start.x - cur.x| ≥ |start.y - cur.y| →
        cur_direction start cur DragAngle.Balanced =
          some DragDirection.RightToLeft ∨
        cur_direction start cur DragAngle.Balanced =
          some DragDirection.LeftToRight) ∧
      (|start.y - cur.y| * (n : ℚ) > |start.x - cur.x| →
        cur_direction start cur (DragAngle.VerticalNTimesEasier n) =
          some DragDirection.Vertical) ∧
      (|start.x - cur.x| ≥ |start.y - cur.y| * (n : ℚ) →
        cur_direction start cur (DragAngle.VerticalNTimesEasier n) =
          some DragDirection.RightToLeft ∨
        cur_direction start cur (DragAngle.VerticalNTimesEasier n) =
          some DragDirection.LeftToRight)) ∧
    (∀ a, cur_direction start cur a = some DragDirection.LeftToRight →
      start.x < cur.x) ∧
    (∀ a, cur_direction start cur a = some DragDirection.RightToLeft →
      cur.x ≤ start.x) ∧
    (∀ (d : Drag) (ctx : DragCtx) (did : Id) (sd : Bool)
        (c : DragDirection),
      ctx.pressOrigin = some start → ctx.latestPos = some cur →
      cur_direction start cur d.angle = some c →
      d.direction.contains c = false →
      (d.handle_dragging ctx did sd).1 = false) := by
  refine ⟨?_, ?_, ?_, ?_, ?_⟩
  · intro hdz a
    simp [cur_direction, hdz]
  · intro hdz
    refine ⟨?_, ?_, ?_, ?_⟩
    · intro hv
      simp [cur_direction, hdz, hv]
    · intro hh
      rcases le_or_lt 0 (start.x - cur.x) with hx | hx
      · left
        simp [cur_direction, hdz, not_lt.mpr hh, hx]
      · right
        simp [cur_direction, hdz, not_lt.mpr hh, not_le.mpr hx]
    · intro hv
      simp [cur_direction, hdz, hv]
    · intro hh
      rcases le_or_lt 0 (start.x - cur.x) with hx | hx
      · left
        simp [cur_direction, hdz, not_lt.mpr hh, hx]
      · right
        simp [cur_direction, hdz, not_lt.mpr hh, not_le.mpr hx]
  · intro a ha
    by_contra hc
    push_neg at hc
    have hx : start.x - cur.x ≥ 0 := by linarith
    simp only [cur_direction] at ha
    split_ifs at ha <;> exact absurd ha (by decide)
  · intro a ha
    by_contra hc
    push_neg at hc
    have hx : ¬ (start.x - cur.x ≥ 0) := by push_neg; linarith
    simp only [cur_direction] at ha
    split_ifs at ha <;> exact absurd ha (by decide)
  · intro d ctx did sd c ho hl hcd hnc
    unfold Drag.handle_dragging
    rw [ho, hl]
    by_cases hin : d.content_rect.contains start = true
    · simp [hin, hcd, hnc]
    · simp [hin]

end EguiNav

namespace EguiNav

/-- Witness for C7 (amended): dx = 2, dy = 30 is above the deadzone and
vertically dominated, so Balanced classifies it Vertical. -/
theorem drag_direction_classification_witness :
    (¬ ((|(2:ℚ) - 0| < 8) ∧ (|(30:ℚ) - 0| < 8))) ∧
      cur_direction ⟨2, 30⟩ ⟨0, 0⟩ DragAngle.Balanced =
        some DragDirection.Vertical :=
  ⟨by norm_num [abs_of_nonneg],
    ((drag_direction_classification ⟨2, 30⟩ ⟨0, 0⟩ 2).2.1
      (by norm_num [abs_of_nonneg])).1 (by norm_num [abs_of_nonneg])⟩

/-- Claim C9 counterexample: both route-stack constructors in the
repository fail on the empty stack (the modelled panic, none); neither
returns an empty result, and no non-panicking constructor variant
exists in the source. -/
theorem empty_stack_constructors_fail :
    Nav.new ([] : List ℕ) = none ∧ Router.new ([] : List ℕ) = none :=
  ⟨rfl, rfl⟩

/-- Claim C9 (amended): Nav::new and Router::new panic for the empty
slice and succeed for every non-empty slice; the repository offers no
non-panicking constructor variant returning an empty result. -/
theorem empty_stack_construction (α : Type) :
    (Nav.new ([] : List α) = none) ∧
    (∀ l : List α, l ≠ [] → (Nav.new l).isSome = true) ∧
    (Router.new ([] : List α) = none) ∧
    (∀ l : List α, l ≠ [] → (Router.new l).isSome = true) := by
  refine ⟨rfl, ?_, rfl, ?_⟩ <;>
    · intro l hl
      simp [Nav.new, Router.new, hl]

/-- Witness for C9 (amended) on the one-element stack. -/
theorem empty_stack_construction_witness :
    ([0] : List ℕ) ≠ [] ∧ (Nav.new ([0] : List ℕ)).isSome = true ∧
      (Router.new ([0] : List ℕ)).isSome = true :=
  ⟨by simp,
    (empty_stack_construction ℕ).2.1 [0] (by simp),
    (empty_stack_construction ℕ).2.2.2 [0] (by simp)⟩

/-- Claim C10: pop on a one-route router returns none and changes
nothing, go_back returns none and changes nothing when only one route
remains or the router is already returning, and on two or more routes
pop clears the returning flag and removes and returns exactly the top
route. -/
theorem router_never_empties (α : Type) (r : Router α) :
    (r.routes.length = 1 →
      r.pop = (none, r) ∧ r.go_back = (none, r)) ∧
    (r.is_returning = true → r.go_back = (none, r)) ∧
    (2 ≤ r.routes.length →
      (∃ top, r.routes.getLast? = some top ∧
        r.pop = (some top,
          { routes := r.routes.dropLast,
            flags := r.flags &&& 4294967294 })) ∧
      (r.pop).2.is_returning = false ∧
      (r.pop).2.routes.length = r.routes.length - 1) := by
  refine ⟨?_, ?_, ?_⟩
  · intro h1
    constructor
    · simp [Router.pop, h1]
    · simp [Router.go_back, h1]
  · intro hret
    simp [Router.go_back, hret]
  · intro h2
    have hne : r.routes ≠ [] := by
      intro h
      rw [h] at h2
      simp at h2
    have hlen : r.routes.length ≠ 1 := by omega
    obtain ⟨top, htop⟩ := Option.isSome_iff_exists.mp
      (List.getLast?_isSome.mpr hne)
    have hpop : r.pop = (some top,
        { routes := r.routes.dropLast,
          flags := r.flags &&& 4294967294 }) := by
      simp [Router.pop, hlen, Router.set_returning, htop, RETURNING]
    refine ⟨⟨top, htop, hpop⟩, ?_, ?_⟩
    · rw [hpop]
      have hz : r.flags &&& 4294967294 &&& 1 = 0 := by
        rw [Nat.land_assoc, show (4294967294 &&& 1 : ℕ) = 0 by decide,
          Nat.and_zero]
      simp [Router.is_returning, RETURNING, hz]
    · rw [hpop]
      simp [List.length_dropLast]

/-- Witness for C10 on a concrete two-route router with the returning
flag set. -/
theorem router_never_empties_witness :
    2 ≤ ([10, 20] : List ℕ).length ∧
      (Router.pop ⟨[10, 20], 1⟩).2.is_returning = false :=
  ⟨by simp,
    ((router_never_empties ℕ ⟨[10, 20], 1⟩).2.2 (by simp)).2.1⟩

end EguiNav
